import Mathlib

/-!
Verification of the `strref` crate (`src/lib.rs`): a shared immutable
string value type `Str` over two representations, `Str::Rc(Arc<String>)`
and `Str::Static(&'static str)`, together with its conversion traits
(`IntoStr`, `ToStr`, `StrRef`) and comparison/hash impls.

Shallow embedding conventions:
- A Rust `String` is modelled as `RString`: its heap buffer address plus
  its text.  `&'static str` is `StaticStr`: the address of the static
  data plus the text.  `Arc<String>` / `Rc<String>` are `ArcString` /
  `RcString`: the address of the reference-counted allocation plus the
  `RString` stored inside it (whose buffer keeps its own address when
  moved into the allocation, as `as_ptr` observes).
- Allocation and reference counting are made explicit by threading a
  `Mem` state: `next` is the next fresh address (so `m.next` unchanged
  means no allocation happened), `rc` maps an allocation address to its
  reference count.
- Zero-copy claims are stated as equalities of buffer addresses, as the
  crate's own tests do via `as_ptr`.
-/

namespace Strref

/-- Allocator / reference-count state threaded through the operations.
`next` is the next fresh address; `rc a` is the reference count of the
shared allocation at address `a`. -/
structure Mem where
  next : Nat
  rc : Nat → Nat

/-- Allocate a fresh address with reference count 1. -/
def Mem.alloc (m : Mem) : Nat × Mem :=
  (m.next, ⟨m.next + 1, fun a => if a = m.next then 1 else m.rc a⟩)

/-- Increment the reference count of allocation `a` (an `Arc::clone`). -/
def Mem.incr (m : Mem) (a : Nat) : Mem :=
  ⟨m.next, fun x => if x = a then m.rc a + 1 else m.rc x⟩

/-- A Rust `String`: the address of its heap character buffer and its text. -/
structure RString where
  addr : Nat
  text : String

/-- `String::clone`: copies the text into a freshly allocated buffer. -/
def RString.clone (s : RString) (m : Mem) : RString × Mem :=
  let (a, m1) := m.alloc
  (⟨a, s.text⟩, m1)

/-- A Rust `&'static str`: address of the static data and its text. -/
structure StaticStr where
  addr : Nat
  text : String

/-- An `Arc<String>`: the address of the reference-counted allocation and
the `String` moved inside it (the buffer keeps its own address). -/
structure ArcString where
  addr : Nat
  str : RString

/-- `Arc::new`: a fresh reference-counted allocation holding the moved
`String`; the character buffer itself is not copied. -/
def ArcString.new (s : RString) (m : Mem) : ArcString × Mem :=
  let (a, m1) := m.alloc
  (⟨a, s⟩, m1)

/-- `Arc::clone`: the same allocation, count incremented, nothing allocated. -/
def ArcString.clone (x : ArcString) (m : Mem) : ArcString × Mem :=
  (x, m.incr x.addr)

/-- An `Rc<String>`: same shape as `ArcString`, but an incompatible
(non-atomic) reference-counting mechanism. -/
structure RcString where
  addr : Nat
  str : RString

/-- The `Str` enum of `src/lib.rs`: `Rc(Arc<String>)` or
`Static(&'static str)`. -/
inductive Str where
  | Rc (a : ArcString)
  | Static (s : StaticStr)

/-- `StrRef::borrow_str` for `Arc<String>`: view the text. -/
def ArcString.borrow_str (a : ArcString) : String := a.str.text

/-- `Str::borrow_str`: the borrowed `&str` view, per variant. -/
def Str.borrow_str : Str → String
  | .Rc a => a.borrow_str
  | .Static s => s.text

/-- `Str::as_ptr` (via `Deref` to `str`): the address of the viewed
character data, per variant. -/
def Str.as_ptr : Str → Nat
  | .Rc a => a.str.addr
  | .Static s => s.addr

/-- `impl Clone for Str`: `Rc` clones the `Arc` (count increment),
`Static` copies the reference. -/
def Str.clone (x : Str) (m : Mem) : Str × Mem :=
  match x with
  | .Rc a =>
    let (a2, m1) := a.clone m
    (.Rc a2, m1)
  | .Static s => (.Static s, m)

/-- `Str::duplicate`: `String::from(self.borrow_str())`, a fresh
independently owned copy of the text. -/
def Str.duplicate (x : Str) (m : Mem) : RString × Mem :=
  let (a, m1) := m.alloc
  (⟨a, x.borrow_str⟩, m1)

/-- `impl IntoStr for Str`: returns `self`. -/
def Str.into_str (x : Str) (m : Mem) : Str × Mem := (x, m)

/-- `impl IntoStr for String`: `Str::Rc(Arc::new(self))`; the buffer is
moved into the new `Arc` allocation, not text-copied. -/
def RString.into_str (s : RString) (m : Mem) : Str × Mem :=
  let (a, m1) := ArcString.new s m
  (.Rc a, m1)

/-- `impl IntoStr for Arc<String>`: `Str::Rc(self)`, wrapping the very
same allocation. -/
def ArcString.into_str (a : ArcString) (m : Mem) : Str × Mem :=
  (.Rc a, m)

/-- `impl IntoStr for Rc<String>`: clones the inner `String` (full text
copy) and wraps the copy in a new `Arc`. -/
def RcString.into_str (r : RcString) (m : Mem) : Str × Mem :=
  let (cloned, m1) := RString.clone r.str m
  let (a, m2) := ArcString.new cloned m1
  (.Rc a, m2)

/-- `impl IntoStr for &'static str`: `Str::Static(self)`. -/
def StaticStr.into_str (s : StaticStr) (m : Mem) : Str × Mem :=
  (.Static s, m)

/-- `impl ToStr for &'static str`: `Str::Static(*self)`, no copy. -/
def StaticStr.to_str (s : StaticStr) (m : Mem) : Str × Mem :=
  (.Static s, m)

/-- `impl ToStr for Arc<String>`: `Str::Rc(self.clone())`, incrementing
the share count of the same allocation. -/
def ArcString.to_str (a : ArcString) (m : Mem) : Str × Mem :=
  let (a2, m1) := a.clone m
  (.Rc a2, m1)

/-- `impl PartialEq<str> for Str`: `self.borrow_str().eq(other)`. -/
def Str.eq_str (x : Str) (s : String) : Bool := x.borrow_str == s

/-- `impl PartialEq<Str> for str`: `self.eq(other.borrow_str())`. -/
def str_eq_Str (s : String) (x : Str) : Bool := s == x.borrow_str

/-- `impl PartialEq<Str> for Str`: `self.eq(other.borrow_str())`, which
delegates to `PartialEq<str> for Str`. -/
def Str.eq (a b : Str) : Bool := a.eq_str b.borrow_str

/-- Comparison of two characters by code point (the order `str`
comparison induces: UTF-8 byte order agrees with code-point order). -/
def charCmp (a b : Char) : Ordering :=
  if a < b then .lt else if b < a then .gt else .eq

/-- Lexicographic comparison of character sequences, the contract of
primitive `str::cmp`. -/
def lexCmp : List Char → List Char → Ordering
  | [], [] => .eq
  | [], _ :: _ => .lt
  | _ :: _, [] => .gt
  | a :: as, b :: bs =>
    match charCmp a b with
    | .eq => lexCmp as bs
    | .lt => .lt
    | .gt => .gt

/-- Primitive `str::cmp`: lexicographic over the character sequence. -/
def strCmp (a b : String) : Ordering := lexCmp a.data b.data

/-- `impl Ord for Str`: borrow both views, delegate to `str::cmp`. -/
def Str.cmp (a b : Str) : Ordering := strCmp a.borrow_str b.borrow_str

/-- A hasher state, modelled abstractly as the sequence of string slices
absorbed so far. -/
abbrev Hasher := List String

/-- Primitive `str::hash`: absorb the slice into the hasher state. -/
def strHash (s : String) (h : Hasher) : Hasher := h ++ [s]

/-- `impl Hash for Str`: borrow the view and delegate to `str::hash`. -/
def Str.hash (x : Str) (h : Hasher) : Hasher := strHash x.borrow_str h

/-- Writable buffer store, used to express independence of the buffer
`duplicate` returns: mutating one address never changes another. -/
def writeBuf (bufs : Nat → String) (a : Nat) (s : String) : Nat → String :=
  fun x => if x = a then s else bufs x

theorem charCmp_eq_iff (a b : Char) : charCmp a b = .eq ↔ a = b := by
  unfold charCmp
  rcases lt_trichotomy a b with h | h | h
  · simp [h, ne_of_lt h]
  · simp [h, lt_irrefl]
  · simp [h, not_lt_of_gt h, (ne_of_lt h).symm]

theorem lexCmp_eq_iff : ∀ l1 l2 : List Char, lexCmp l1 l2 = .eq ↔ l1 = l2
  | [], [] => by simp [lexCmp]
  | [], _ :: _ => by simp [lexCmp]
  | _ :: _, [] => by simp [lexCmp]
  | a :: as, b :: bs => by
    simp only [lexCmp]
    cases h : charCmp a b with
    | eq => simp [(charCmp_eq_iff a b).mp h, lexCmp_eq_iff as bs]
    | lt =>
      have hne : a ≠ b := fun e => by
        rw [(charCmp_eq_iff a b).mpr e] at h
        exact Ordering.noConfusion h
      simp [hne]
    | gt =>
      have hne : a ≠ b := fun e => by
        rw [(charCmp_eq_iff a b).mpr e] at h
        exact Ordering.noConfusion h
      simp [hne]

theorem strCmp_eq_iff (a b : String) : strCmp a b = .eq ↔ a = b := by
  rw [strCmp, lexCmp_eq_iff]
  exact ⟨fun h => by cases a; cases b; exact congrArg String.mk h,
    fun h => by rw [h]⟩

/-- Concrete allocator state for witnesses: addresses below 5 are live. -/
def m0 : Mem := ⟨5, fun _ => 1⟩

/-- Concrete `Rc<String>` for witnesses. -/
def r0 : RcString := ⟨3, ⟨2, "hi"⟩⟩

/-- Concrete `Arc<String>` for witnesses. -/
def a0 : ArcString := ⟨4, ⟨1, "yo"⟩⟩

/-- Concrete `Str` for witnesses. -/
def x0 : Str := .Static ⟨2, "dup"⟩

/-- Claim C1: for every pair of Str values a and b, a == b holds iff
their borrowed character sequences are equal; the variant tag and, for
Rc, which allocation backs the value, never influence equality. -/
theorem C1_eq_iff_view_eq (a b : Str) :
    Str.eq a b = true ↔ a.borrow_str = b.borrow_str := by
  simp [Str.eq, Str.eq_str]

/-- Claim C2: `into_str` on an `Rc<String>` performs one full text copy
into a new allocation, so the resulting backing address differs from the
source's; `into_str` on an `Arc<String>` wraps the allocation directly
with zero copy, so the backing address is unchanged and no allocation
happens. -/
theorem C2_rc_copies_arc_wraps (r : RcString) (a : ArcString) (m : Mem)
    (h : r.str.addr < m.next) :
    (r.into_str m).1.as_ptr ≠ r.str.addr ∧
    (r.into_str m).1.borrow_str = r.str.text ∧
    (a.into_str m).1.as_ptr = a.str.addr ∧
    (a.into_str m).2 = m := by
  refine ⟨?_, rfl, rfl, rfl⟩
  show m.next ≠ r.str.addr
  exact ne_of_gt h

/-- Witness for C2 at a concrete `Rc<String>`, `Arc<String>` and state. -/
theorem C2_rc_copies_arc_wraps_witness :
    r0.str.addr < m0.next ∧
    ((r0.into_str m0).1.as_ptr ≠ r0.str.addr ∧
     (r0.into_str m0).1.borrow_str = r0.str.text ∧
     (a0.into_str m0).1.as_ptr = a0.str.addr ∧
     (a0.into_str m0).2 = m0) :=
  ⟨by decide, C2_rc_copies_arc_wraps r0 a0 m0 (by decide)⟩

/-- Claim C3: consuming an owned String by `into_str` and borrowing the
result yields text identical to the original, and the buffer is moved
rather than copied: the backing address equals the original buffer's. -/
theorem C3_string_into_zero_copy (s : RString) (m : Mem) :
    (s.into_str m).1.borrow_str = s.text ∧
    (s.into_str m).1.as_ptr = s.addr :=
  ⟨rfl, rfl⟩

/-- Claim C4: `into_str` on a static slice produces the Static variant
with no allocation, and borrowing the result gives back exactly the
slice (same text, same backing address). -/
theorem C4_static_round_trip (s : StaticStr) (m : Mem) :
    (s.into_str m).1 = Str.Static s ∧
    (s.into_str m).2 = m ∧
    (s.into_str m).1.borrow_str = s.text ∧
    (s.into_str m).1.as_ptr = s.addr :=
  ⟨rfl, rfl, rfl, rfl⟩

/-- Claim C5: `clone` never copies the character data: the view is
preserved and nothing is allocated; a Static value is returned verbatim
with the state untouched, while an Rc value keeps the same backing
allocation and increments its reference count. -/
theorem C5_clone_no_copy (x : Str) (m : Mem) :
    (Str.clone x m).1.borrow_str = x.borrow_str ∧
    (Str.clone x m).2.next = m.next ∧
    (match x with
      | .Static _ => Str.clone x m = (x, m)
      | .Rc a => (Str.clone x m).1 = .Rc a ∧
          (Str.clone x m).1.as_ptr = x.as_ptr ∧
          (Str.clone x m).2.rc a.addr = m.rc a.addr + 1) := by
  cases x with
  | Rc a =>
    refine ⟨rfl, rfl, rfl, rfl, ?_⟩
    show (m.incr a.addr).rc a.addr = m.rc a.addr + 1
    simp [Mem.incr]
  | Static s => exact ⟨rfl, rfl, rfl⟩

/-- Claim C6: equality between a Str and a primitive slice holds in both
directions and is symmetric; in particular `into_str "foo" == "foo"` and
`"foo" == into_str "foo"`. -/
theorem C6_eq_with_slices_symmetric (v : Str) (s : String) :
    (Str.eq_str v s = true ↔ v.borrow_str = s) ∧
    (str_eq_Str s v = true ↔ s = v.borrow_str) ∧
    Str.eq_str v s = str_eq_Str s v ∧
    str_eq_Str "foo" ((StaticStr.into_str ⟨0, "foo"⟩ m0).1) = true ∧
    Str.eq_str ((StaticStr.into_str ⟨0, "foo"⟩ m0).1) "foo" = true := by
  refine ⟨by simp [Str.eq_str], by simp [str_eq_Str], ?_, by decide, by decide⟩
  show (v.borrow_str == s) = (s == v.borrow_str)
  exact beq_eq_beq.mpr eq_comm

/-- Claim C7: ordering and hashing delegate to the borrowed view: `cmp`
is the lexicographic comparison of the viewed character sequences (so
`into_str "aa" < into_str "bb"`, and `cmp` agrees with textual
equality), and hashing a Str produces exactly the result of hashing its
borrowed slice on every hasher state. -/
theorem C7_cmp_hash_delegate (a b : Str) (h : Hasher) :
    Str.cmp a b = lexCmp a.borrow_str.data b.borrow_str.data ∧
    (Str.cmp a b = .eq ↔ a.borrow_str = b.borrow_str) ∧
    Str.hash a h = strHash a.borrow_str h ∧
    Str.cmp ((StaticStr.into_str ⟨0, "aa"⟩ m0).1)
      ((StaticStr.into_str ⟨1, "bb"⟩ m0).1) = .lt :=
  ⟨rfl, strCmp_eq_iff _ _, rfl, by decide⟩

/-- Claim C8: `duplicate` returns the same text in a freshly allocated,
independently owned buffer: its address differs from the source's, and
writing through the duplicate's address never changes what is read at
the source's address. -/
theorem C8_duplicate_fresh (x : Str) (m : Mem) (h : x.as_ptr < m.next) :
    (x.duplicate m).1.text = x.borrow_str ∧
    (x.duplicate m).1.addr ≠ x.as_ptr ∧
    (∀ bufs : Nat → String, ∀ s : String,
      writeBuf bufs (x.duplicate m).1.addr s x.as_ptr = bufs x.as_ptr) := by
  refine ⟨rfl, ?_, ?_⟩
  · show m.next ≠ x.as_ptr
    exact ne_of_gt h
  · intro bufs s
    show writeBuf bufs m.next s x.as_ptr = bufs x.as_ptr
    have hne : x.as_ptr ≠ m.next := ne_of_lt h
    simp [writeBuf, hne]

/-- Witness for C8 at a concrete Str and state. -/
theorem C8_duplicate_fresh_witness :
    x0.as_ptr < m0.next ∧
    ((x0.duplicate m0).1.text = x0.borrow_str ∧
     (x0.duplicate m0).1.addr ≠ x0.as_ptr ∧
     (∀ bufs : Nat → String, ∀ s : String,
       writeBuf bufs (x0.duplicate m0).1.addr s x0.as_ptr =
         bufs x0.as_ptr)) :=
  ⟨by decide, C8_duplicate_fresh x0 m0 (by decide)⟩

/-- Claim C9: `to_str` on a static slice returns the Static variant
directly with no copy and no allocation; on an `Arc<String>` it
increments the share count and wraps the same allocation without
copying the text or allocating. -/
theorem C9_to_str_snapshot (s : StaticStr) (a : ArcString) (m : Mem) :
    s.to_str m = (Str.Static s, m) ∧
    (a.to_str m).1 = Str.Rc a ∧
    (a.to_str m).2.rc a.addr = m.rc a.addr + 1 ∧
    (a.to_str m).2.next = m.next := by
  refine ⟨rfl, rfl, ?_, rfl⟩
  show (m.incr a.addr).rc a.addr = m.rc a.addr + 1
  simp [Mem.incr]

/-- Claim C10: `into_str` on a Str is the identity: the same value comes
back with its variant, viewed text and backing allocation unchanged, and
no allocation or copy is performed. -/
theorem C10_into_str_identity (x : Str) (m : Mem) :
    Str.into_str x m = (x, m) ∧
    (Str.into_str x m).1.borrow_str = x.borrow_str ∧
    (Str.into_str x m).1.as_ptr = x.as_ptr ∧
    (Str.into_str x m).2.next = m.next :=
  ⟨rfl, rfl, rfl, rfl⟩

end Strref
